import Mathlib

/-!
Verification of the neovim MCP server's session adapter (`src/neovim.ts`)
and request router (`src/index.ts` and the McpServer-based entry point).

The adapter methods are embedded as computations in a small state monad
`NvimM` over an editor state `EditorCore` plus a trace of RPC calls.  The
behavior of the external editor (Neovim, reached through the node client)
is a parameter `NvimSem`: each RPC primitive may mutate the editor state
and may fail.  `stdSem` instantiates those primitives with the documented
Neovim semantics; fully arbitrary `NvimSem` values model connection and
RPC failures.

JavaScript string operations used by the source (`startsWith`, `substring`,
`trim`, `split`) are embedded as functions on the character list of a
string, matching their JavaScript semantics.
-/

/-- JavaScript `s.startsWith(p)`: `p`'s characters are an initial segment
of `s`'s characters. -/
def jsStartsWith (s p : String) : Bool :=
  p.toList.isPrefixOf s.toList

/-- JavaScript `s.substring(n)` for a nonnegative `n`: drop the first `n`
characters. -/
def jsDrop (s : String) (n : Nat) : String :=
  String.mk (s.toList.drop n)

/-- Whitespace for the purposes of JavaScript `trim` (the source only ever
trims editor output, where these four characters are what occurs). -/
def isJsWhitespace (c : Char) : Bool :=
  c = ' ' || c = '\t' || c = '\n' || c = '\r'

/-- JavaScript `s.trim()`: strip whitespace from both ends. -/
def jsTrim (s : String) : String :=
  String.mk (((s.toList.dropWhile isJsWhitespace).reverse.dropWhile isJsWhitespace).reverse)

/-- Auxiliary splitter: JavaScript `s.split('\n')` over the remaining
characters, with the current (reversed) segment accumulator. -/
def splitNlAux : List Char → List Char → List String
  | [], acc => [String.mk acc.reverse]
  | c :: rest, acc =>
    if c = '\n' then String.mk acc.reverse :: splitNlAux rest []
    else splitNlAux rest (c :: acc)

/-- JavaScript `s.split('\n')` (used by `editLines` and the multi-insert
tool to split the new text into lines). -/
def splitOnNewlines (s : String) : List String :=
  splitNlAux s.toList []

/-- The mutable state of the external editor that the adapter's RPC calls
read and write: current buffer lines, the `v:errmsg` variable, cursor,
mark table, register table, working directory, mode string and buffer
name. -/
structure EditorCore where
  lines : List String
  errmsg : String
  cursor : Nat × Nat
  marks : List (Char × (Nat × Nat))
  registers : List (String × String)
  cwd : String
  mode : String
  bufName : String
deriving Repr, DecidableEq

/-- One RPC call from the adapter to the editor, as recorded in the trace.
`evalSystem` is the expression-evaluation call `eval("system('...')")`
that runs a shell command through the editor (the single-quote escaping
performed by the source when embedding the command is abstracted into the
argument). -/
inductive RpcCall where
  | connect
  | bufGetLines
  | bufLength
  | bufRemove (start stop : Nat)
  | bufInsert (repl : List String) (start : Nat)
  | bufReplace (repl : List String) (start : Nat)
  | setVvar (name val : String)
  | getVvar (name : String)
  | callExecute (cmd : String)
  | callGetcwd
  | evalSystem (shellCmd : String)
  | evalGetpos (mark : Char)
  | evalGetreg (reg : String)
  | evalSetreg (reg : String) (content : String)
  | evalWinlayout
  | command (cmd : String)
  | setCursor (pos : Nat × Nat)
  | getCursor
  | getMode
  | getBufName
  | getTabNumber
  | listWindows
  | winBuffer (winId : Nat)
  | winWidth (winId : Nat)
  | winHeight (winId : Nat)
  | winPosition (winId : Nat)
  | listBuffers
  | bufLoaded (bufId : Nat)
  | bufGetBoolOption (bufId : Nat) (name : String)
  | bufGetStrOption (bufId : Nat) (name : String)
  | bufNameOf (bufId : Nat)
  | bufGetLinesRange (start stop : Nat)
deriving Repr, DecidableEq

/-- A failure raised by a connection attempt or an RPC call. -/
structure RpcError where
  msg : String
deriving Repr, DecidableEq

/-- The world an adapter computation runs in: the editor state plus the
trace of RPC calls issued so far. -/
structure World where
  core : EditorCore
  tr : List RpcCall
deriving Repr, DecidableEq

/-- Adapter computations: state (world) passing with exceptions, mirroring
the async/try structure of the TypeScript methods. -/
structure NvimM (α : Type) where
  run : World → Except RpcError α × World

instance : Monad NvimM where
  pure a := ⟨fun w => (.ok a, w)⟩
  bind m f := ⟨fun w =>
    match m.run w with
    | (.ok a, w1) => (f a).run w1
    | (.error e, w1) => (.error e, w1)⟩

/-- `try ... catch ...`: run `m`; on failure continue with the handler
from the state reached at the failure point. -/
def tryCatchM {α : Type} (m : NvimM α) (h : RpcError → NvimM α) : NvimM α :=
  ⟨fun w =>
    match m.run w with
    | (.ok a, w1) => (.ok a, w1)
    | (.error e, w1) => (h e).run w1⟩

@[simp] theorem run_pure {α : Type} (a : α) (w : World) :
    (pure a : NvimM α).run w = (.ok a, w) := rfl

@[simp] theorem run_bind {α β : Type} (m : NvimM α) (f : α → NvimM β) (w : World) :
    (m >>= f).run w =
      match m.run w with
      | (.ok a, w1) => (f a).run w1
      | (.error e, w1) => (.error e, w1) := rfl

theorem run_tryCatchM {α : Type} (m : NvimM α) (h : RpcError → NvimM α) (w : World) :
    (tryCatchM m h).run w =
      match m.run w with
      | (.ok a, w1) => (.ok a, w1)
      | (.error e, w1) => (h e).run w1 := rfl

/-- The behavior of the external editor, one field per RPC primitive the
adapter uses.  Each call may update the editor state and may fail; a fully
arbitrary `NvimSem` models arbitrary connection/RPC failures. -/
structure NvimSem where
  connect : Except RpcError Unit
  bufGetLines : EditorCore → Except RpcError (List String)
  bufLength : EditorCore → Except RpcError Nat
  bufRemove : Nat → Nat → EditorCore → EditorCore × Except RpcError Unit
  bufInsert : List String → Nat → EditorCore → EditorCore × Except RpcError Unit
  bufReplace : List String → Nat → EditorCore → EditorCore × Except RpcError Unit
  setVvar : String → String → EditorCore → EditorCore × Except RpcError Unit
  getVvar : String → EditorCore → Except RpcError String
  callExecute : String → EditorCore → EditorCore × Except RpcError String
  callGetcwd : EditorCore → Except RpcError String
  evalSystem : String → EditorCore → EditorCore × Except RpcError String
  evalGetpos : Char → EditorCore → Except RpcError (Nat × Nat × Nat × Nat)
  evalGetreg : String → EditorCore → Except RpcError String
  evalSetreg : String → String → EditorCore → EditorCore × Except RpcError Unit
  evalWinlayout : EditorCore → Except RpcError String
  command : String → EditorCore → EditorCore × Except RpcError Unit
  setCursor : Nat × Nat → EditorCore → EditorCore × Except RpcError Unit
  getCursor : EditorCore → Except RpcError (Nat × Nat)
  getMode : EditorCore → Except RpcError String
  getBufName : EditorCore → Except RpcError String
  getTabNumber : EditorCore → Except RpcError Nat
  listWindows : EditorCore → Except RpcError (List Nat)
  winBuffer : Nat → EditorCore → Except RpcError Nat
  winWidth : Nat → EditorCore → Except RpcError Nat
  winHeight : Nat → EditorCore → Except RpcError Nat
  winPosition : Nat → EditorCore → Except RpcError (Nat × Nat)
  listBuffers : EditorCore → Except RpcError (List Nat)
  bufLoaded : Nat → EditorCore → Except RpcError Bool
  bufGetBoolOption : Nat → String → EditorCore → Except RpcError Bool
  bufGetStrOption : Nat → String → EditorCore → Except RpcError String
  bufNameOf : Nat → EditorCore → Except RpcError String
  bufGetLinesRange : Nat → Nat → EditorCore → Except RpcError (List String)

/-- Record an RPC call and consult a read-only editor behavior. -/
def liftRead {α : Type} (c : RpcCall) (f : EditorCore → Except RpcError α) : NvimM α :=
  ⟨fun w => (f w.core, { w with tr := w.tr ++ [c] })⟩

/-- Record an RPC call and consult a state-updating editor behavior. -/
def liftOp {α : Type} (c : RpcCall) (f : EditorCore → EditorCore × Except RpcError α) : NvimM α :=
  ⟨fun w => ((f w.core).2, { core := (f w.core).1, tr := w.tr ++ [c] })⟩

def rpcConnect (sem : NvimSem) : NvimM Unit :=
  ⟨fun w => (sem.connect, { w with tr := w.tr ++ [RpcCall.connect] })⟩

def rpcBufGetLines (sem : NvimSem) : NvimM (List String) :=
  liftRead .bufGetLines sem.bufGetLines

def rpcBufLength (sem : NvimSem) : NvimM Nat :=
  liftRead .bufLength sem.bufLength

def rpcBufRemove (sem : NvimSem) (start stop : Nat) : NvimM Unit :=
  liftOp (.bufRemove start stop) (sem.bufRemove start stop)

def rpcBufInsert (sem : NvimSem) (repl : List String) (start : Nat) : NvimM Unit :=
  liftOp (.bufInsert repl start) (sem.bufInsert repl start)

def rpcBufReplace (sem : NvimSem) (repl : List String) (start : Nat) : NvimM Unit :=
  liftOp (.bufReplace repl start) (sem.bufReplace repl start)

def rpcSetVvar (sem : NvimSem) (name val : String) : NvimM Unit :=
  liftOp (.setVvar name val) (sem.setVvar name val)

def rpcGetVvar (sem : NvimSem) (name : String) : NvimM String :=
  liftRead (.getVvar name) (sem.getVvar name)

def rpcCallExecute (sem : NvimSem) (cmd : String) : NvimM String :=
  liftOp (.callExecute cmd) (sem.callExecute cmd)

def rpcCallGetcwd (sem : NvimSem) : NvimM String :=
  liftRead .callGetcwd sem.callGetcwd

def rpcEvalSystem (sem : NvimSem) (shellCmd : String) : NvimM String :=
  liftOp (.evalSystem shellCmd) (sem.evalSystem shellCmd)

def rpcEvalGetpos (sem : NvimSem) (mark : Char) : NvimM (Nat × Nat × Nat × Nat) :=
  liftRead (.evalGetpos mark) (sem.evalGetpos mark)

def rpcEvalGetreg (sem : NvimSem) (reg : String) : NvimM String :=
  liftRead (.evalGetreg reg) (sem.evalGetreg reg)

def rpcEvalSetreg (sem : NvimSem) (reg content : String) : NvimM Unit :=
  liftOp (.evalSetreg reg content) (sem.evalSetreg reg content)

def rpcEvalWinlayout (sem : NvimSem) : NvimM String :=
  liftRead .evalWinlayout sem.evalWinlayout

def rpcCommand (sem : NvimSem) (cmd : String) : NvimM Unit :=
  liftOp (.command cmd) (sem.command cmd)

def rpcSetCursor (sem : NvimSem) (pos : Nat × Nat) : NvimM Unit :=
  liftOp (.setCursor pos) (sem.setCursor pos)

def rpcGetCursor (sem : NvimSem) : NvimM (Nat × Nat) :=
  liftRead .getCursor sem.getCursor

def rpcGetMode (sem : NvimSem) : NvimM String :=
  liftRead .getMode sem.getMode

def rpcGetBufName (sem : NvimSem) : NvimM String :=
  liftRead .getBufName sem.getBufName

def rpcGetTabNumber (sem : NvimSem) : NvimM Nat :=
  liftRead .getTabNumber sem.getTabNumber

def rpcListWindows (sem : NvimSem) : NvimM (List Nat) :=
  liftRead .listWindows sem.listWindows

def rpcWinBuffer (sem : NvimSem) (winId : Nat) : NvimM Nat :=
  liftRead (.winBuffer winId) (sem.winBuffer winId)

def rpcWinWidth (sem : NvimSem) (winId : Nat) : NvimM Nat :=
  liftRead (.winWidth winId) (sem.winWidth winId)

def rpcWinHeight (sem : NvimSem) (winId : Nat) : NvimM Nat :=
  liftRead (.winHeight winId) (sem.winHeight winId)

def rpcWinPosition (sem : NvimSem) (winId : Nat) : NvimM (Nat × Nat) :=
  liftRead (.winPosition winId) (sem.winPosition winId)

def rpcListBuffers (sem : NvimSem) : NvimM (List Nat) :=
  liftRead .listBuffers sem.listBuffers

def rpcBufLoaded (sem : NvimSem) (bufId : Nat) : NvimM Bool :=
  liftRead (.bufLoaded bufId) (sem.bufLoaded bufId)

def rpcBufGetBoolOption (sem : NvimSem) (bufId : Nat) (name : String) : NvimM Bool :=
  liftRead (.bufGetBoolOption bufId name) (sem.bufGetBoolOption bufId name)

def rpcBufGetStrOption (sem : NvimSem) (bufId : Nat) (name : String) : NvimM String :=
  liftRead (.bufGetStrOption bufId name) (sem.bufGetStrOption bufId name)

def rpcBufNameOf (sem : NvimSem) (bufId : Nat) : NvimM String :=
  liftRead (.bufNameOf bufId) (sem.bufNameOf bufId)

def rpcBufGetLinesRange (sem : NvimSem) (start stop : Nat) : NvimM (List String) :=
  liftRead (.bufGetLinesRange start stop) (sem.bufGetLinesRange start stop)

/-! ## Session adapter (`NeovimManager`, src/neovim.ts)

Each public method mirrors the TypeScript method line by line: acquire a
connection, perform the RPC calls, and convert any failure into a fallback
value in a top-level catch.  The `ALLOW_SHELL_COMMANDS` environment
variable is passed in as `allowShell : Option String` (`none` models an
unset variable). -/

/-- The fixed advisory string returned when shell execution is disabled. -/
def shellDisabledAdvisory : String :=
  "Shell command execution is disabled. Set ALLOW_SHELL_COMMANDS=true environment variable to enable shell commands."

/-- `// Remove leading colon if present` in `sendCommand`. -/
def normalizeCommand (command : String) : String :=
  if jsStartsWith command ":" then jsDrop command 1 else command

/-- Numbered line map built by `getBufferContents`: the Map from 1-indexed
line number to line text, in insertion order. -/
def numberLines (lines : List String) : List (Nat × String) :=
  lines.enum.map (fun p => (p.1 + 1, p.2))

/-- `NeovimManager.getBufferContents`: read the buffer's lines, number
them from 1; on any failure return an empty mapping. -/
def getBufferContents (sem : NvimSem) : NvimM (List (Nat × String)) :=
  tryCatchM
    (do
      rpcConnect sem
      let lines ← rpcBufGetLines sem
      pure (numberLines lines))
    (fun _ => pure [])

/-- `NeovimManager.sendCommand`: strip a leading colon; shell commands
(leading `!`) are gated on `ALLOW_SHELL_COMMANDS === 'true'` and executed
through `eval("system('...')")`; ordinary commands clear `v:errmsg`,
execute via `execute()`, then re-read `v:errmsg`. -/
def sendCommand (sem : NvimSem) (allowShell : Option String) (command : String) : NvimM String :=
  tryCatchM
    (do
      rpcConnect sem
      let normalizedCommand := normalizeCommand command
      if jsStartsWith normalizedCommand "!" then
        if allowShell ≠ some "true" then
          pure shellDisabledAdvisory
        else
          tryCatchM
            (do
              let shellCommand := jsTrim (jsDrop normalizedCommand 1)
              let output ← rpcEvalSystem sem shellCommand
              if output ≠ "" then
                pure (jsTrim output)
              else
                pure "No output from command")
            (fun e => pure ("Error executing shell command: " ++ e.msg))
      else do
        rpcSetVvar sem "errmsg" ""
        let output ← rpcCallExecute sem normalizedCommand
        let vimerr ← rpcGetVvar sem "errmsg"
        if vimerr ≠ "" then
          pure ("Error executing command: " ++ vimerr)
        else
          if output ≠ "" then
            pure (jsTrim output)
          else
            pure "Command executed (no output)")
    (fun _ => pure "Error executing command")

/-- The mark identifiers a–z probed by `getNeovimStatus`. -/
def markChars : List Char :=
  "abcdefghijklmnopqrstuvwxyz".toList

/-- The register names probed by `getNeovimStatus`: a–z, the unnamed
register and the digit registers 0–9 (the digits are JavaScript numbers
whose object keys stringify). -/
def registerNames : List String :=
  (markChars.map (fun c => String.mk [c])) ++ ["\""] ++ ((List.range 10).map (fun n => toString n))

/-- The mark-probing loop of `getNeovimStatus`: for each mark, try
`getpos("'m")` and record `[pos[1], pos[2]]`; a probe failure is silently
skipped (`// Mark not set`). -/
def probeMarks (sem : NvimSem) : List Char → NvimM (List (Char × (Nat × Nat)))
  | [] => pure []
  | m :: rest => do
    let entry ← tryCatchM
      (do
        let pos ← rpcEvalGetpos sem m
        pure [(m, (pos.2.1, pos.2.2.1))])
      (fun _ => pure [])
    let tail ← probeMarks sem rest
    pure (entry ++ tail)

/-- The register-probing loop of `getNeovimStatus`: for each register, try
`getreg('r')`; a probe failure is silently skipped (`// Register empty`). -/
def probeRegisters (sem : NvimSem) : List String → NvimM (List (String × String))
  | [] => pure []
  | r :: rest => do
    let entry ← tryCatchM
      (do
        let v ← rpcEvalGetreg sem r
        pure [(r, v)])
      (fun _ => pure [])
    let tail ← probeRegisters sem rest
    pure (entry ++ tail)

/-- The `NeovimStatus` record assembled by `getNeovimStatus`. -/
structure EditorStatusR where
  cursorPosition : Nat × Nat
  mode : String
  visualSelection : String
  fileName : String
  windowLayout : String
  currentTab : Nat
  marks : List (Char × (Nat × Nat))
  registers : List (String × String)
  cwd : String
deriving Repr, DecidableEq

/-- The result of `getNeovimStatus`: a status record or an error string
(the TypeScript return type `NeovimStatus | string`). -/
inductive StatusResult where
  | status (s : EditorStatusR)
  | errorText (s : String)
deriving Repr, DecidableEq

/-- `NeovimManager.getNeovimStatus`: gather cursor, mode, layout, tab,
marks, registers, cwd and file name; read the visual selection when the
mode string starts with `v`; any outer failure collapses to the error
string. -/
def getNeovimStatus (sem : NvimSem) : NvimM StatusResult :=
  tryCatchM
    (do
      rpcConnect sem
      let cursor ← rpcGetCursor sem
      let mode ← rpcGetMode sem
      let layout ← rpcEvalWinlayout sem
      let currentTab ← rpcGetTabNumber sem
      let marks ← probeMarks sem markChars
      let registers ← probeRegisters sem registerNames
      let cwd ← rpcCallGetcwd sem
      let fileName ← rpcGetBufName sem
      let base : EditorStatusR :=
        { cursorPosition := cursor, mode := mode, visualSelection := "",
          fileName := fileName, windowLayout := layout, currentTab := currentTab,
          marks := marks, registers := registers, cwd := cwd }
      if jsStartsWith mode "v" then do
        let s ← rpcEvalGetpos sem '<'
        let e ← rpcEvalGetpos sem '>'
        let selLines ← rpcBufGetLinesRange sem (s.2.1 - 1) e.2.1
        pure (.status { base with visualSelection := String.intercalate "\n" selLines })
      else
        pure (.status base))
    (fun _ => pure (.errorText "Error getting Neovim status"))

/-- `NeovimManager.editLines`: split the new text on newlines, then
dispatch on the mode: `replaceAll` removes every line and inserts the new
lines at the top, `replace` calls the client's `Buffer.replace` at
`startLine - 1`, `insert` inserts before `startLine - 1`.  Line numbers
are 1-indexed at this interface (the model uses `Nat`, so only positive
`startLine` values are faithful to the JavaScript arithmetic). -/
def editLines (sem : NvimSem) (startLine : Nat) (mode : String) (newText : String) : NvimM String :=
  tryCatchM
    (do
      rpcConnect sem
      let splitByLines := splitOnNewlines newText
      if mode = "replaceAll" then do
        let lineCount ← rpcBufLength sem
        rpcBufRemove sem 0 lineCount
        rpcBufInsert sem splitByLines 0
        pure "Buffer completely replaced"
      else if mode = "replace" then do
        rpcBufReplace sem splitByLines (startLine - 1)
        pure "Lines replaced successfully"
      else if mode = "insert" then do
        rpcBufInsert sem splitByLines (startLine - 1)
        pure "Lines inserted successfully"
      else
        pure "Invalid mode specified")
    (fun _ => pure "Error editing lines")

/-- One entry of the `getWindows` result. -/
structure WindowInfoR where
  id : Nat
  bufferId : Nat
  width : Nat
  height : Nat
  row : Nat
  col : Nat
deriving Repr, DecidableEq

/-- The per-window loop of `getWindows`. -/
def getWindowInfos (sem : NvimSem) : List Nat → NvimM (List WindowInfoR)
  | [] => pure []
  | winId :: rest => do
    let bufId ← rpcWinBuffer sem winId
    let width ← rpcWinWidth sem winId
    let height ← rpcWinHeight sem winId
    let pos ← rpcWinPosition sem winId
    let tail ← getWindowInfos sem rest
    pure ({ id := winId, bufferId := bufId, width := width, height := height,
            row := pos.1, col := pos.2 } :: tail)

/-- `NeovimManager.getWindows`: list the windows and collect their info;
empty sequence on failure. -/
def getWindows (sem : NvimSem) : NvimM (List WindowInfoR) :=
  tryCatchM
    (do
      rpcConnect sem
      let ws ← rpcListWindows sem
      getWindowInfos sem ws)
    (fun _ => pure [])

/-- The window-command allow-list of `manipulateWindow`. -/
def validWindowCommands : List String :=
  ["split", "vsplit", "only", "close", "wincmd h", "wincmd j", "wincmd k", "wincmd l"]

/-- `NeovimManager.manipulateWindow`: reject commands that match no
allow-list entry by prefix, otherwise forward to the editor. -/
def manipulateWindow (sem : NvimSem) (command : String) : NvimM String :=
  if ¬ (validWindowCommands.any (fun cmd => jsStartsWith command cmd)) then
    pure "Invalid window command"
  else
    tryCatchM
      (do
        rpcConnect sem
        rpcCommand sem command
        pure "Window command executed")
      (fun _ => pure "Error executing window command")

/-- Lowercase ASCII letter test (the regex `^[a-z]$` applied to one
character). -/
def isLowerAZ (c : Char) : Bool :=
  'a' ≤ c && c ≤ 'z'

/-- The regex test `/^[a-z]$/.test(mark)` of `setMark`. -/
def isValidMarkName (s : String) : Bool :=
  match s.toList with
  | [c] => isLowerAZ c
  | _ => false

/-- `NeovimManager.setMark`: validate the mark name, then issue the
`mark x` command (which marks the cursor's current location) and only
afterwards move the cursor to the requested position; confirm with the
requested coordinates. -/
def setMark (sem : NvimSem) (mark : String) (line col : Nat) : NvimM String :=
  if ¬ (isValidMarkName mark) then
    pure "Invalid mark name (must be a-z)"
  else
    tryCatchM
      (do
        rpcConnect sem
        rpcCommand sem ("mark " ++ mark)
        rpcSetCursor sem (line, col)
        pure ("Mark " ++ mark ++ " set at line " ++ toString line ++ ", column " ++ toString col))
      (fun _ => pure "Error setting mark")

/-- The register allow-list of `setRegister`: the single-character strings
a–z and the double quote. -/
def validRegisters : List String :=
  (markChars.map (fun c => String.mk [c])) ++ ["\""]

/-- `NeovimManager.setRegister`: validate the register name, then set it
through `setreg` (the single-quote escaping of the content for embedding
in the evaluated expression is abstracted into the primitive). -/
def setRegister (sem : NvimSem) (register content : String) : NvimM String :=
  if ¬ (validRegisters.contains register) then
    pure "Invalid register name"
  else
    tryCatchM
      (do
        rpcConnect sem
        rpcEvalSetreg sem register content
        pure ("Register " ++ register ++ " set"))
      (fun _ => pure "Error setting register")

/-- `NeovimManager.visualSelect`: enter visual mode, move the cursor to
the start, then to the end. -/
def visualSelect (sem : NvimSem) (startLine startCol endLine endCol : Nat) : NvimM String :=
  tryCatchM
    (do
      rpcConnect sem
      rpcCommand sem "normal! v"
      rpcSetCursor sem (startLine, startCol)
      rpcSetCursor sem (endLine, endCol)
      pure "Visual selection made")
    (fun _ => pure "Error making visual selection")

/-- One entry of the `getOpenBuffers` result. -/
structure BufferInfoR where
  number : Nat
  name : String
  isListed : Bool
  isLoaded : Bool
  modified : Bool
  synLabel : String
  windowIds : List Nat
deriving Repr, DecidableEq

/-- The window cross-reference loop of `getOpenBuffers`: the ids of the
windows currently displaying the given buffer. -/
def windowIdsFor (sem : NvimSem) (bufId : Nat) : List Nat → NvimM (List Nat)
  | [] => pure []
  | winId :: rest => do
    let wb ← rpcWinBuffer sem winId
    let tail ← windowIdsFor sem bufId rest
    pure (if wb = bufId then winId :: tail else tail)

/-- The per-buffer loop of `getOpenBuffers`. -/
def buildBufferInfos (sem : NvimSem) (wins : List Nat) : List Nat → NvimM (List BufferInfoR)
  | [] => pure []
  | bufId :: rest => do
    let isLoaded ← rpcBufLoaded sem bufId
    let isListed ← rpcBufGetBoolOption sem bufId "buflisted"
    let modified ← rpcBufGetBoolOption sem bufId "modified"
    let syn ← rpcBufGetStrOption sem bufId "syntax"
    let windowIds ← windowIdsFor sem bufId wins
    let name ← rpcBufNameOf sem bufId
    let tail ← buildBufferInfos sem wins rest
    pure ({ number := bufId, name := name, isListed := isListed, isLoaded := isLoaded,
            modified := modified, synLabel := syn, windowIds := windowIds } :: tail)

/-- `NeovimManager.getOpenBuffers`: list buffers and windows, collect each
buffer's attributes and displaying windows; empty sequence on failure. -/
def getOpenBuffers (sem : NvimSem) : NvimM (List BufferInfoR) :=
  tryCatchM
    (do
      rpcConnect sem
      let bufs ← rpcListBuffers sem
      let wins ← rpcListWindows sem
      buildBufferInfos sem wins bufs)
    (fun _ => pure [])

/-! ## Request routers

Both server entry points (the legacy `Server`-based `src/index.ts` and the
current `McpServer`-based entry point) wrap adapter results into a single
text content block; the handlers below return that text. -/

/-- The `"<lineNumber>: <lineText>"` rendering used by the buffer
resource and by the tools that return buffer contents. -/
def renderBufferContents (entries : List (Nat × String)) : String :=
  String.intercalate "\n" (entries.map (fun p => toString p.1 ++ ": " ++ p.2))

/-- The `vim_command` tool handler (identical gate logic in both entry
points): a command starting with `!` is rejected with the advisory string
when `ALLOW_SHELL_COMMANDS` is not `'true'`; otherwise the command is
forwarded to `sendCommand`. -/
def vimCommandTool (sem : NvimSem) (allowShell : Option String) (command : String) : NvimM String :=
  if jsStartsWith command "!" then
    if allowShell ≠ some "true" then
      pure shellDisabledAdvisory
    else
      sendCommand sem allowShell command
  else
    sendCommand sem allowShell command

/-- The `vim_edit` tool handler of the current (McpServer) entry point:
edit, run the `Format` command, then return the numbered buffer
contents. -/
def vimEditTool (sem : NvimSem) (allowShell : Option String)
    (startLine : Nat) (mode : String) (lines : String) : NvimM String := do
  let _ ← editLines sem startLine mode lines
  let _ ← sendCommand sem allowShell "Format"
  let bufferContents ← getBufferContents sem
  pure (renderBufferContents bufferContents)

/-- The `vim_edit` case of the legacy (`Server`-based) entry point: the
tool's text is the result string of `editLines` itself. -/
def vimEditToolLegacy (sem : NvimSem) (startLine : Nat) (mode : String) (lines : String) :
    NvimM String :=
  editLines sem startLine mode lines

/-- One entry of the `vim_insert_multiple` actions array. -/
structure InsertAction where
  startLine : Nat
  content : String
deriving Repr, DecidableEq

/-- The loop of the `vim_insert_multiple` handler: apply each action as an
`insert` at `lineOffset + startLine`, then advance the offset by the
newline count (`content.split('\n').length`) of the inserted block. -/
def applyInsertActions (sem : NvimSem) : Nat → List InsertAction → NvimM Unit
  | _, [] => pure ()
  | lineOffset, a :: rest => do
    let _ ← editLines sem (lineOffset + a.startLine) "insert" a.content
    applyInsertActions sem (lineOffset + (splitOnNewlines a.content).length) rest

/-- The `vim_insert_multiple` tool handler: apply the actions with the
running offset, run `Format`, then return the numbered buffer contents. -/
def vimInsertMultipleTool (sem : NvimSem) (allowShell : Option String)
    (actions : List InsertAction) : NvimM String := do
  applyInsertActions sem 0 actions
  let _ ← sendCommand sem allowShell "Format"
  let bufferContents ← getBufferContents sem
  pure (renderBufferContents bufferContents)

/-! ## Documented Neovim semantics (`stdSem`)

The adapter talks to Neovim through the node client; neither is code of
this repository, so their primitives are modelled from their documented
behavior.  `stdSem` is parameterized by an arbitrary ex-command execution
behavior `ex` (the effect and captured output of `execute(cmd)`), since
command execution semantics are the editor's own. -/

/-- Modelled from the Neovim API (`nvim_buf_set_lines`, the primitive
behind the node client's `Buffer.remove`, `Buffer.insert` and
`Buffer.replace`): the line range `[start, stop)` is replaced by the
given lines.  A Neovim buffer always contains at least one line, so a
replacement that would leave the buffer with no lines leaves a single
empty line instead. -/
def setLinesNvim (buf : List String) (start stop : Nat) (repl : List String) : List String :=
  let res := buf.take start ++ repl ++ buf.drop stop
  if res = [] then [""] else res

/-- Modelled from the spec: the node client's `Buffer.replace` (library
code not present in this repository; the repository's own tool description
states "replace will replace lines starting at the startLine to the end of
the buffer") replaces the lines from the start index through the end of
the buffer. -/
def bufReplaceSem (buf : List String) (repl : List String) (start : Nat) : List String :=
  setLinesNvim buf start buf.length repl

/-- Modelled from the Neovim documentation of the `:mark` ex-command: it
places the named mark at the cursor's current position.  Other command
strings are kept as a no-op on the modelled state (their effects live in
the `ex` parameter of `stdSem`, reached through `execute`, not through
`nvim.command`). -/
def stdCommand (cmd : String) (core : EditorCore) : EditorCore × Except RpcError Unit :=
  match cmd.toList with
  | 'm' :: 'a' :: 'r' :: 'k' :: ' ' :: [c] =>
    if isLowerAZ c then ({ core with marks := (c, core.cursor) :: core.marks }, .ok ())
    else (core, .ok ())
  | _ => (core, .ok ())

/-- The documented behavior of the Neovim primitives the adapter calls,
with successful connections.  In particular, modelled from the Neovim
documentation: `getpos()` yields `[0, 0, 0, 0]` for an unset mark rather
than raising an error, and `getreg()` yields an empty string for an empty
or unset register rather than raising an error. -/
def stdSem (ex : String → EditorCore → EditorCore × String) : NvimSem where
  connect := .ok ()
  bufGetLines := fun core => .ok core.lines
  bufLength := fun core => .ok core.lines.length
  bufRemove := fun start stop core =>
    ({ core with lines := setLinesNvim core.lines start stop [] }, .ok ())
  bufInsert := fun repl start core =>
    ({ core with lines := setLinesNvim core.lines start start repl }, .ok ())
  bufReplace := fun repl start core =>
    ({ core with lines := bufReplaceSem core.lines repl start }, .ok ())
  setVvar := fun name val core =>
    (if name = "errmsg" then { core with errmsg := val } else core, .ok ())
  getVvar := fun name core => .ok (if name = "errmsg" then core.errmsg else "")
  callExecute := fun cmd core => ((ex cmd core).1, .ok (ex cmd core).2)
  callGetcwd := fun core => .ok core.cwd
  evalSystem := fun _ core => (core, .ok "")
  evalGetpos := fun mark core =>
    .ok (match core.marks.lookup mark with
      | some p => (0, p.1, p.2, 0)
      | none => (0, 0, 0, 0))
  evalGetreg := fun reg core => .ok (((core.registers.lookup reg).getD ""))
  evalSetreg := fun reg content core =>
    ({ core with registers := (reg, content) :: core.registers }, .ok ())
  evalWinlayout := fun _ => .ok "[\"leaf\", 1000]"
  command := stdCommand
  setCursor := fun pos core => ({ core with cursor := pos }, .ok ())
  getCursor := fun core => .ok core.cursor
  getMode := fun core => .ok core.mode
  getBufName := fun core => .ok core.bufName
  getTabNumber := fun _ => .ok 1
  listWindows := fun _ => .ok []
  winBuffer := fun _ _ => .ok 0
  winWidth := fun _ _ => .ok 0
  winHeight := fun _ _ => .ok 0
  winPosition := fun _ _ => .ok (0, 0)
  listBuffers := fun _ => .ok []
  bufLoaded := fun _ _ => .ok true
  bufGetBoolOption := fun _ _ _ => .ok false
  bufGetStrOption := fun _ _ _ => .ok ""
  bufNameOf := fun _ _ => .ok ""
  bufGetLinesRange := fun start stop core => .ok ((core.lines.drop start).take (stop - start))

/-- An execution behavior for `execute()` that changes nothing and
produces no output (a command with no effect on the modelled state, e.g.
an undefined `Format` user command whose error is suppressed). -/
def execNoop : String → EditorCore → EditorCore × String :=
  fun _ core => (core, "")

/-- A fresh session on an empty buffer (a Neovim buffer is never without
lines: the empty buffer is the single empty line), normal mode, no marks
set and all registers empty. -/
def emptyCore : EditorCore :=
  { lines := [""], errmsg := "", cursor := (1, 0), marks := [], registers := [],
    cwd := "/", mode := "n", bufName := "" }

/-- Whether a trace contains a shell-evaluation call. -/
def traceHasShellEval (tr : List RpcCall) : Bool :=
  tr.any (fun c => match c with | .evalSystem _ => true | _ => false)

/-! ## Helper lemmas -/

instance exceptDecEq {ε α : Type} [DecidableEq ε] [DecidableEq α] : DecidableEq (Except ε α) :=
  fun a b =>
    match a, b with
    | .ok x, .ok y => if h : x = y then .isTrue (by rw [h]) else .isFalse (by simp [h])
    | .error x, .error y => if h : x = y then .isTrue (by rw [h]) else .isFalse (by simp [h])
    | .ok _, .error _ => .isFalse (by simp)
    | .error _, .ok _ => .isFalse (by simp)

theorem isOk_tryCatchM_pure {α : Type} (m : NvimM α) (f : RpcError → α) (w : World) :
    ((tryCatchM m (fun e => pure (f e))).run w).1.isOk = true := by
  rw [run_tryCatchM]
  cases h : m.run w with
  | mk r w1 => cases r <;> rfl

theorem getBufferContents_isOk (sem : NvimSem) (w : World) :
    ((getBufferContents sem).run w).1.isOk = true := by
  unfold getBufferContents; exact isOk_tryCatchM_pure _ _ _

theorem sendCommand_isOk (sem : NvimSem) (env : Option String) (c : String) (w : World) :
    ((sendCommand sem env c).run w).1.isOk = true := by
  unfold sendCommand; exact isOk_tryCatchM_pure _ _ _

theorem getNeovimStatus_isOk (sem : NvimSem) (w : World) :
    ((getNeovimStatus sem).run w).1.isOk = true := by
  unfold getNeovimStatus; exact isOk_tryCatchM_pure _ _ _

theorem editLines_isOk (sem : NvimSem) (s : Nat) (m t : String) (w : World) :
    ((editLines sem s m t).run w).1.isOk = true := by
  unfold editLines; exact isOk_tryCatchM_pure _ _ _

theorem getWindows_isOk (sem : NvimSem) (w : World) :
    ((getWindows sem).run w).1.isOk = true := by
  unfold getWindows; exact isOk_tryCatchM_pure _ _ _

theorem manipulateWindow_isOk (sem : NvimSem) (c : String) (w : World) :
    ((manipulateWindow sem c).run w).1.isOk = true := by
  unfold manipulateWindow
  split
  · rfl
  · exact isOk_tryCatchM_pure _ _ _

theorem setMark_isOk (sem : NvimSem) (m : String) (l c : Nat) (w : World) :
    ((setMark sem m l c).run w).1.isOk = true := by
  unfold setMark
  split
  · rfl
  · exact isOk_tryCatchM_pure _ _ _

theorem setRegister_isOk (sem : NvimSem) (r c : String) (w : World) :
    ((setRegister sem r c).run w).1.isOk = true := by
  unfold setRegister
  split
  · rfl
  · exact isOk_tryCatchM_pure _ _ _

theorem visualSelect_isOk (sem : NvimSem) (a b c d : Nat) (w : World) :
    ((visualSelect sem a b c d).run w).1.isOk = true := by
  unfold visualSelect; exact isOk_tryCatchM_pure _ _ _

theorem getOpenBuffers_isOk (sem : NvimSem) (w : World) :
    ((getOpenBuffers sem).run w).1.isOk = true := by
  unfold getOpenBuffers; exact isOk_tryCatchM_pure _ _ _

theorem splitNlAux_ne_nil (l acc : List Char) : splitNlAux l acc ≠ [] := by
  induction l generalizing acc with
  | nil => simp [splitNlAux]
  | cons c rest ih =>
    simp only [splitNlAux]
    split
    · simp
    · exact ih (c :: acc)

theorem splitOnNewlines_ne_nil (s : String) : splitOnNewlines s ≠ [] :=
  splitNlAux_ne_nil _ _

/-- The shell gate of `sendCommand`: when the normalized command is a
shell command and the flag is not `'true'`, no shell evaluation is
reached, and the result is the advisory string whenever the connection
succeeds. -/
theorem sendCommand_gate_closed (sem : NvimSem) (env : Option String) (command : String)
    (core : EditorCore)
    (hsh : jsStartsWith (normalizeCommand command) "!" = true)
    (hgate : env ≠ some "true") :
    traceHasShellEval ((sendCommand sem env command).run ⟨core, []⟩).2.tr = false
    ∧ (sem.connect = .ok () →
        ((sendCommand sem env command).run ⟨core, []⟩).1 = .ok shellDisabledAdvisory) := by
  unfold sendCommand
  rw [run_tryCatchM]
  cases hc : sem.connect with
  | error e =>
    simp [run_bind, rpcConnect, hc, traceHasShellEval]
  | ok u =>
    simp [run_bind, rpcConnect, hc, hsh, hgate, traceHasShellEval]

theorem colonBang_toList (command : String) (h : jsStartsWith command ":!" = true) :
    ∃ t, command.toList = ':' :: '!' :: t := by
  unfold jsStartsWith at h
  rw [List.isPrefixOf_iff_prefix] at h
  rcases h with ⟨t, ht⟩
  exact ⟨t, ht.symm⟩

theorem colonBang_not_bang (command : String) (h : jsStartsWith command ":!" = true) :
    jsStartsWith command "!" = false := by
  rcases colonBang_toList command h with ⟨t, ht⟩
  unfold jsStartsWith
  rw [ht]
  rfl

theorem colonBang_normalized_bang (command : String) (h : jsStartsWith command ":!" = true) :
    jsStartsWith (normalizeCommand command) "!" = true := by
  rcases colonBang_toList command h with ⟨t, ht⟩
  have hcolon : jsStartsWith command ":" = true := by
    unfold jsStartsWith
    rw [ht]
    rfl
  unfold normalizeCommand
  rw [hcolon]
  simp only [ite_true, if_pos]
  unfold jsStartsWith jsDrop
  rw [ht]
  simp [String.toList, List.isPrefixOf]

theorem getBufferContents_stdSem_run (ex : String → EditorCore → EditorCore × String)
    (w : World) :
    (getBufferContents (stdSem ex)).run w
      = (.ok (numberLines w.core.lines), ⟨w.core, w.tr ++ [.connect, .bufGetLines]⟩) := by
  unfold getBufferContents
  rw [run_tryCatchM]
  simp [run_bind, rpcConnect, stdSem, rpcBufGetLines, liftRead]

/-! ## Concrete sessions used by the witnesses and counterexamples -/

/-- A session whose buffer holds the single line `"old"`. -/
def coreOld : EditorCore := { emptyCore with lines := ["old"] }

/-- A session whose buffer holds the three lines `x`, `y`, `z`. -/
def coreThree : EditorCore := { emptyCore with lines := ["x", "y", "z"] }

/-- A session whose cursor stands at line 7, column 7. -/
def coreCursor : EditorCore := { emptyCore with cursor := (7, 7) }

/-- The mark table of a `getNeovimStatus` result (empty for the error
string). -/
def statusMarksOf : Except RpcError StatusResult → List (Char × (Nat × Nat))
  | .ok (.status st) => st.marks
  | _ => []

/-- The register table of a `getNeovimStatus` result (empty for the error
string). -/
def statusRegistersOf : Except RpcError StatusResult → List (String × String)
  | .ok (.status st) => st.registers
  | _ => []

/-! ## Claims -/

/-- Claim C1: for every command whose normalized form (after stripping one
leading colon) begins with `!`, when `ALLOW_SHELL_COMMANDS` is not set to
`'true'`, `sendCommand` issues no shell-evaluation RPC at all, and returns
the fixed advisory string whenever the connection succeeds. -/
theorem claim1_shell_disabled_advisory (sem : NvimSem) (env : Option String) (command : String)
    (core : EditorCore)
    (hsh : jsStartsWith (normalizeCommand command) "!" = true)
    (hgate : env ≠ some "true") :
    traceHasShellEval ((sendCommand sem env command).run ⟨core, []⟩).2.tr = false
    ∧ (sem.connect = .ok () →
        ((sendCommand sem env command).run ⟨core, []⟩).1 = .ok shellDisabledAdvisory) :=
  sendCommand_gate_closed sem env command core hsh hgate

/-- Witness for C1 at the spec's own example `sendCommand("!rm -rf /")`
with the flag unset. -/
theorem claim1_shell_disabled_advisory_witness :
    jsStartsWith (normalizeCommand "!rm -rf /") "!" = true
    ∧ (none : Option String) ≠ some "true"
    ∧ (traceHasShellEval
        ((sendCommand (stdSem execNoop) none "!rm -rf /").run ⟨emptyCore, []⟩).2.tr = false
       ∧ ((stdSem execNoop).connect = .ok () →
          ((sendCommand (stdSem execNoop) none "!rm -rf /").run ⟨emptyCore, []⟩).1
            = .ok shellDisabledAdvisory)) :=
  ⟨by decide, by decide,
    claim1_shell_disabled_advisory (stdSem execNoop) none "!rm -rf /" emptyCore
      (by decide) (by decide)⟩

/-- Claim C2: for every ordinary (non-shell) command, `sendCommand` clears
`v:errmsg`, executes the command through `execute()` capturing its output,
re-reads `v:errmsg`, and returns the error-describing string containing
that error text when it is non-empty, otherwise the trimmed output, or the
neutral string when the output is empty — in exactly that RPC order. -/
theorem claim2_regular_protocol (ex : String → EditorCore → EditorCore × String)
    (env : Option String) (command : String) (core : EditorCore)
    (h : jsStartsWith (normalizeCommand command) "!" = false) :
    ((sendCommand (stdSem ex) env command).run ⟨core, []⟩).1
      = .ok (if (ex (normalizeCommand command) { core with errmsg := "" }).1.errmsg ≠ ""
             then "Error executing command: "
                  ++ (ex (normalizeCommand command) { core with errmsg := "" }).1.errmsg
             else if (ex (normalizeCommand command) { core with errmsg := "" }).2 ≠ ""
               then jsTrim (ex (normalizeCommand command) { core with errmsg := "" }).2
               else "Command executed (no output)")
    ∧ ((sendCommand (stdSem ex) env command).run ⟨core, []⟩).2.tr
      = [.connect, .setVvar "errmsg" "", .callExecute (normalizeCommand command),
         .getVvar "errmsg"] := by
  unfold sendCommand
  rw [run_tryCatchM]
  simp only [run_bind, rpcConnect, stdSem, h, rpcSetVvar, rpcCallExecute, rpcGetVvar,
    liftOp, liftRead]
  refine ⟨?_, ?_⟩ <;> simp [h] <;> split_ifs <;> simp

/-- Witness for C2 at the ordinary command `pwd` under the no-op execution
behavior. -/
theorem claim2_regular_protocol_witness :
    jsStartsWith (normalizeCommand "pwd") "!" = false
    ∧ (((sendCommand (stdSem execNoop) none "pwd").run ⟨emptyCore, []⟩).1
        = .ok (if (execNoop (normalizeCommand "pwd") { emptyCore with errmsg := "" }).1.errmsg ≠ ""
               then "Error executing command: "
                    ++ (execNoop (normalizeCommand "pwd") { emptyCore with errmsg := "" }).1.errmsg
               else if (execNoop (normalizeCommand "pwd") { emptyCore with errmsg := "" }).2 ≠ ""
                 then jsTrim (execNoop (normalizeCommand "pwd") { emptyCore with errmsg := "" }).2
                 else "Command executed (no output)")
       ∧ ((sendCommand (stdSem execNoop) none "pwd").run ⟨emptyCore, []⟩).2.tr
         = [.connect, .setVvar "errmsg" "", .callExecute (normalizeCommand "pwd"),
            .getVvar "errmsg"]) :=
  ⟨by decide, claim2_regular_protocol execNoop none "pwd" emptyCore (by decide)⟩

/-- Claim C3 (code bug evidence): `editLines` in `replaceAll` mode deletes
every line — which leaves the mandatory single empty line of a Neovim
buffer — and then inserts the replacement at the top, so the following
`getBufferContents` shows the replacement lines plus one trailing empty
line, not exactly the replacement lines. -/
theorem claim3_replaceAll_trailing_blank :
    ((editLines (stdSem execNoop) 1 "replaceAll" "a").run ⟨coreOld, []⟩).1
      = .ok "Buffer completely replaced"
    ∧ ((getBufferContents (stdSem execNoop)).run
        ((editLines (stdSem execNoop) 1 "replaceAll" "a").run ⟨coreOld, []⟩).2).1
      = .ok [(1, "a"), (2, "")]
    ∧ ([(1, "a"), (2, "")] : List (Nat × String)) ≠ [(1, "a")] :=
  ⟨by decide, by decide, by decide⟩

/-- Counterexample for C4: the multi-insert of `[{1, "a"}, {1, "b"}]` into
an initially empty buffer does not leave the buffer with exactly the lines
`["a", "b"]` (the empty buffer's original empty line survives below
them). -/
theorem claim4_counterexample :
    ((vimInsertMultipleTool (stdSem execNoop) none
        [⟨1, "a"⟩, ⟨1, "b"⟩]).run ⟨emptyCore, []⟩).2.core.lines ≠ ["a", "b"] := by
  decide

/-- Claim C4 as amended: the multi-insert of `[{1, "a"}, {1, "b"}]` into an
initially empty buffer places `"a"` at line 1 and `"b"` at line 2 in that
order — the running offset puts the second insert after the first —
followed by the buffer's original empty line. -/
theorem claim4_offset_insert_in_order :
    ((vimInsertMultipleTool (stdSem execNoop) none
        [⟨1, "a"⟩, ⟨1, "b"⟩]).run ⟨emptyCore, []⟩).2.core.lines = ["a", "b", ""]
    ∧ ((vimInsertMultipleTool (stdSem execNoop) none
        [⟨1, "a"⟩, ⟨1, "b"⟩]).run ⟨emptyCore, []⟩).1 = .ok "1: a\n2: b\n3: " :=
  ⟨by decide, by decide⟩

/-- Claim C5 (code bug evidence): on a session with no marks set and all
registers empty, `getNeovimStatus` does not return an empty mark table:
`getpos()` answers `[0, 0, 0, 0]` for an unset mark and `getreg()` answers
an empty string for an empty register instead of raising, so the
probe-failure skip never fires and every probed key lands in the table. -/
theorem claim5_unset_marks_all_probed :
    emptyCore.marks = []
    ∧ statusMarksOf (((getNeovimStatus (stdSem execNoop)).run ⟨emptyCore, []⟩).1)
        = markChars.map (fun m => (m, (0, 0)))
    ∧ statusMarksOf (((getNeovimStatus (stdSem execNoop)).run ⟨emptyCore, []⟩).1) ≠ []
    ∧ statusRegistersOf (((getNeovimStatus (stdSem execNoop)).run ⟨emptyCore, []⟩).1)
        = registerNames.map (fun r => (r, "")) :=
  ⟨by decide, by decide, by decide, by decide⟩

/-- Claim C6: `editLines` in `replace` mode replaces from the 1-indexed
`startLine` through the end of the buffer with the given lines — an
unbounded replacement, not a range bounded by the replacement's length. -/
theorem claim6_replace_to_end (ex : String → EditorCore → EditorCore × String)
    (startLine : Nat) (newText : String) (core : EditorCore)
    (h : 1 ≤ startLine) :
    ((editLines (stdSem ex) startLine "replace" newText).run ⟨core, []⟩).1
      = .ok "Lines replaced successfully"
    ∧ ((editLines (stdSem ex) startLine "replace" newText).run ⟨core, []⟩).2.core.lines
      = core.lines.take (startLine - 1) ++ splitOnNewlines newText := by
  unfold editLines
  rw [run_tryCatchM]
  simp only [run_bind, rpcConnect, stdSem, rpcBufReplace, liftOp, bufReplaceSem, setLinesNvim]
  simp [List.drop_length, splitOnNewlines_ne_nil]

/-- Witness for C6: replacing from line 2 of the three-line buffer
`x, y, z` with the two lines `n, m` yields `x, n, m`. -/
theorem claim6_replace_to_end_witness :
    1 ≤ 2
    ∧ (((editLines (stdSem execNoop) 2 "replace" "n\nm").run ⟨coreThree, []⟩).1
        = .ok "Lines replaced successfully"
       ∧ ((editLines (stdSem execNoop) 2 "replace" "n\nm").run ⟨coreThree, []⟩).2.core.lines
         = coreThree.lines.take (2 - 1) ++ splitOnNewlines "n\nm") :=
  ⟨by decide, claim6_replace_to_end execNoop 2 "n\nm" coreThree (by decide)⟩

/-- Claim C7: for every valid single lowercase-letter mark, `setMark`
first issues the `mark` command — placing the mark at the cursor's current
(pre-move) position — and only afterwards moves the cursor to the
requested coordinates, returning a confirmation that carries the requested
coordinates. -/
theorem claim7_mark_before_move (ex : String → EditorCore → EditorCore × String)
    (core : EditorCore) (c : Char) (line col : Nat) (hc : isLowerAZ c = true) :
    ((setMark (stdSem ex) (String.mk [c]) line col).run ⟨core, []⟩).1
      = .ok ("Mark " ++ String.mk [c] ++ " set at line " ++ toString line
             ++ ", column " ++ toString col)
    ∧ ((setMark (stdSem ex) (String.mk [c]) line col).run ⟨core, []⟩).2.core.cursor = (line, col)
    ∧ ((setMark (stdSem ex) (String.mk [c]) line col).run ⟨core, []⟩).2.core.marks
      = (c, core.cursor) :: core.marks := by
  have hv : isValidMarkName (String.mk [c]) = true := by
    simp [isValidMarkName, String.toList, hc]
  have hdata : ("mark " ++ String.mk [c]).toList = ['m', 'a', 'r', 'k', ' ', c] := by
    simp [String.toList, String.data_append]
  unfold setMark
  rw [hv]
  simp only [not_true, ite_false, if_neg]
  rw [run_tryCatchM]
  simp only [run_bind, rpcConnect, stdSem, rpcCommand, rpcSetCursor, liftOp, stdCommand,
    hdata, hc]
  simp

/-- Witness for C7: mark `m` requested at line 3, column 4 while the
cursor stands at (7, 7): the mark lands at (7, 7), the cursor at (3, 4),
and the confirmation names (3, 4). -/
theorem claim7_mark_before_move_witness :
    isLowerAZ 'm' = true
    ∧ (((setMark (stdSem execNoop) (String.mk ['m']) 3 4).run ⟨coreCursor, []⟩).1
        = .ok ("Mark " ++ String.mk ['m'] ++ " set at line " ++ toString 3
               ++ ", column " ++ toString 4)
       ∧ ((setMark (stdSem execNoop) (String.mk ['m']) 3 4).run ⟨coreCursor, []⟩).2.core.cursor
         = (3, 4)
       ∧ ((setMark (stdSem execNoop) (String.mk ['m']) 3 4).run ⟨coreCursor, []⟩).2.core.marks
         = ('m', coreCursor.cursor) :: coreCursor.marks) :=
  ⟨by decide, claim7_mark_before_move execNoop coreCursor 'm' 3 4 (by decide)⟩

/-- Claim C8: every public session-adapter method returns a plain fallback
value rather than propagating a failure: under every editor behavior —
including arbitrary connection and RPC failures at any call — each
method's result is `ok`. -/
theorem claim8_adapter_never_throws (sem : NvimSem) (w : World)
    (env : Option String) (command mark register content mode newText : String)
    (startLine line col sLine sCol eLine eCol : Nat) :
    ((getBufferContents sem).run w).1.isOk = true
    ∧ ((sendCommand sem env command).run w).1.isOk = true
    ∧ ((getNeovimStatus sem).run w).1.isOk = true
    ∧ ((editLines sem startLine mode newText).run w).1.isOk = true
    ∧ ((getWindows sem).run w).1.isOk = true
    ∧ ((manipulateWindow sem command).run w).1.isOk = true
    ∧ ((setMark sem mark line col).run w).1.isOk = true
    ∧ ((setRegister sem register content).run w).1.isOk = true
    ∧ ((visualSelect sem sLine sCol eLine eCol).run w).1.isOk = true
    ∧ ((getOpenBuffers sem).run w).1.isOk = true :=
  ⟨getBufferContents_isOk sem w, sendCommand_isOk sem env command w,
   getNeovimStatus_isOk sem w, editLines_isOk sem startLine mode newText w,
   getWindows_isOk sem w, manipulateWindow_isOk sem command w,
   setMark_isOk sem mark line col w, setRegister_isOk sem register content w,
   visualSelect_isOk sem sLine sCol eLine eCol w, getOpenBuffers_isOk sem w⟩

/-- Counterexample for C9: on the current entry point, `vim_edit` with
`(1, insert, "a")` on an empty buffer answers the numbered buffer
rendering, not the `editLines` confirmation — which the legacy entry
point's `vim_edit` case does return. -/
theorem claim9_counterexample :
    ((vimEditTool (stdSem execNoop) none 1 "insert" "a").run ⟨emptyCore, []⟩).1
      = .ok "1: a\n2: "
    ∧ "1: a\n2: " ≠ "Lines inserted successfully"
    ∧ ((vimEditToolLegacy (stdSem execNoop) 1 "insert" "a").run ⟨emptyCore, []⟩).1
      = .ok "Lines inserted successfully" :=
  ⟨by decide, by decide, by decide⟩

/-- Claim C9 as amended: for every input, the current entry point's
`vim_edit` tool returns the numbered rendering of the buffer contents as
they stand after the edit and the `Format` pass (the legacy entry point's
`vim_edit` case is what returns the mode-specific confirmation). -/
theorem claim9_vimEdit_renders_buffer (ex : String → EditorCore → EditorCore × String)
    (env : Option String) (startLine : Nat) (mode lines : String) (core : EditorCore) :
    ((vimEditTool (stdSem ex) env startLine mode lines).run ⟨core, []⟩).1
      = .ok (renderBufferContents (numberLines
          (((sendCommand (stdSem ex) env "Format").run
            ((editLines (stdSem ex) startLine mode lines).run ⟨core, []⟩).2).2.core.lines))) := by
  unfold vimEditTool
  have h1 := editLines_isOk (stdSem ex) startLine mode lines ⟨core, []⟩
  rcases hr1 : (editLines (stdSem ex) startLine mode lines).run ⟨core, []⟩ with ⟨r1, w1⟩
  rw [hr1] at h1
  cases r1 with
  | error e => exact Bool.noConfusion h1
  | ok s1 =>
    have h2 := sendCommand_isOk (stdSem ex) env "Format" w1
    rcases hr2 : (sendCommand (stdSem ex) env "Format").run w1 with ⟨r2, w2⟩
    rw [hr2] at h2
    cases r2 with
    | error e => exact Bool.noConfusion h2
    | ok s2 =>
      simp [run_bind, hr1, hr2, getBufferContents_stdSem_run]

/-- Claim C10: a command beginning with `:!` slips past the entry point's
duplicated gate (which tests only for a leading `!`), but `sendCommand`
strips the leading colon before applying its own gate, so with shell
execution disabled the `vim_command` path still issues no shell evaluation
and returns the fixed advisory string whenever the connection succeeds. -/
theorem claim10_colon_shell_gate (sem : NvimSem) (env : Option String) (command : String)
    (core : EditorCore)
    (hsh : jsStartsWith command ":!" = true)
    (hgate : env ≠ some "true") :
    jsStartsWith command "!" = false
    ∧ traceHasShellEval ((vimCommandTool sem env command).run ⟨core, []⟩).2.tr = false
    ∧ (sem.connect = .ok () →
        ((vimCommandTool sem env command).run ⟨core, []⟩).1 = .ok shellDisabledAdvisory) := by
  have hb := colonBang_not_bang command hsh
  have hn := colonBang_normalized_bang command hsh
  have hg := sendCommand_gate_closed sem env command core hn hgate
  have hrun : vimCommandTool sem env command = sendCommand sem env command := by
    unfold vimCommandTool
    rw [hb]
    simp
  rw [hrun]
  exact ⟨hb, hg.1, hg.2⟩

/-- Witness for C10 at the colon-prefixed shell command `:!ls` with the
flag unset. -/
theorem claim10_colon_shell_gate_witness :
    jsStartsWith ":!ls" ":!" = true
    ∧ (none : Option String) ≠ some "true"
    ∧ (jsStartsWith ":!ls" "!" = false
       ∧ traceHasShellEval
           ((vimCommandTool (stdSem execNoop) none ":!ls").run ⟨emptyCore, []⟩).2.tr = false
       ∧ ((stdSem execNoop).connect = .ok () →
           ((vimCommandTool (stdSem execNoop) none ":!ls").run ⟨emptyCore, []⟩).1
             = .ok shellDisabledAdvisory)) :=
  ⟨by decide, by decide,
    claim10_colon_shell_gate (stdSem execNoop) none ":!ls" emptyCore (by decide) (by decide)⟩
